import Mathlib

/-!
Shallow embedding, in Lean 4, of the deterministic core of the
`promosphere` multi-agent marketing assistant (Python), together with
theorems settling a list of claims about it.

Python strings are modelled as `List Char`; machine-level concerns
(Unicode word classes beyond ASCII, OS calls) are modelled at the level
the claims talk about.  Fallible cloud / subprocess calls are modelled as
explicit `Except` oracles passed in as parameters, so that a theorem
quantifying over the oracle captures every possible behaviour of the
external service.
-/

namespace Promosphere

/-! ## Python string primitives (`List Char` model) -/

/-- A word character in the sense of the regex class `\w` (restricted to
ASCII, which covers SQL keywords and identifiers): letters, digits and
underscore. -/
def isWordChar (c : Char) : Bool :=
  c.isAlphanum || c == '_'

/-- `str.lower()`. -/
def lowerStr (s : List Char) : List Char :=
  s.map Char.toLower

/-- The whitespace characters stripped by Python `str.strip()`. -/
def isPySpace (c : Char) : Bool :=
  c == ' ' || c == '\t' || c == '\n' || c == '\r' || c == '\x0b' || c == '\x0c'

/-- Python `str.strip()`: remove leading and trailing whitespace. -/
def pyStrip (s : List Char) : List Char :=
  ((s.dropWhile isPySpace).reverse.dropWhile isPySpace).reverse

/-- Python `pat in s` (substring containment). -/
def containsSub (pat s : List Char) : Bool :=
  (List.range (s.length + 1)).any fun i => (s.drop i).take pat.length == pat

/-- One pass of Python `str.replace(pat, repl)`: scan left to right,
replacing each non-overlapping occurrence of `pat`.  Structural recursion
on a fuel argument (one unit per character consumed) keeps the function
kernel-computable; `pyReplace` supplies enough fuel. -/
def replaceSubAux (pat repl : List Char) : Nat → List Char → List Char
  | _, [] => []
  | 0, s => s
  | fuel + 1, c :: rest =>
    if pat ≠ [] ∧ pat.isPrefixOf (c :: rest) then
      repl ++ replaceSubAux pat repl fuel ((c :: rest).drop pat.length)
    else
      c :: replaceSubAux pat repl fuel rest

/-- Python `s.replace(pat, repl)`. -/
def pyReplace (s pat repl : List Char) : List Char :=
  replaceSubAux pat repl s.length s

/-! ## The DML/DDL denylist
(`app/sub_agents/data_analysis/sub_agents/bigquery/tools.py`)

`DISALLOWED_DML_RE = re.compile(r"(?i)\b(update|delete|drop|insert|create|alter|truncate|merge)\b")`;
the regex search is embedded directly as a whole-word, case-insensitive
occurrence check. -/

/-- The keywords of `DISALLOWED_DML_RE`. -/
def DISALLOWED_DML_KEYWORDS : List (List Char) :=
  ["update".data, "delete".data, "drop".data, "insert".data,
   "create".data, "alter".data, "truncate".data, "merge".data]

/-- Whether the character of `s` at index `i` exists and is a word
character (used for the regex word boundary `\b`). -/
def wordCharAt (s : List Char) (i : Nat) : Bool :=
  match s[i]? with
  | some c => isWordChar c
  | none => false

/-- `(?i)kw` matches in `s` at index `i` with a word boundary on both
sides: the lowercased slice of length `kw.length` starting at `i` is
`kw`, the previous character (if any) is not a word character, and the
character after the slice (if any) is not a word character. -/
def isWholeWordAt (kw s : List Char) (i : Nat) : Bool :=
  (lowerStr ((s.drop i).take kw.length) == kw)
    && (i == 0 || !wordCharAt s (i - 1))
    && !wordCharAt s (i + kw.length)

/-- `re.search` of `(?i)\bkw\b` in `s` succeeds. -/
def containsWholeWord (kw s : List Char) : Bool :=
  (List.range (s.length + 1)).any (isWholeWordAt kw s)

/-- `_is_disallowed_dml` (tools.py:292-293): the denylist regex finds a
match. -/
def _is_disallowed_dml (sql_string : List Char) : Bool :=
  DISALLOWED_DML_KEYWORDS.any fun kw => containsWholeWord kw sql_string

/-! Specification-level (propositional) reading of "the keyword occurs,
case-insensitively, as a whole word", stated by splitting the string,
independently of the index-based search above. -/

/-- No trailing word character: the part `a` standing left of a match
ends in a non-word character or is empty. -/
def NotWordCharLast (a : List Char) : Prop :=
  ∀ c, a.getLast? = some c → isWordChar c = false

/-- No leading word character: the part `b` standing right of a match
starts with a non-word character or is empty. -/
def NotWordCharHead (b : List Char) : Prop :=
  ∀ c, b.head? = some c → isWordChar c = false

/-- `kw` occurs in `s` case-insensitively as a whole word: `s` splits as
`a ++ w ++ b` with `w` lowercasing to `kw` and non-word characters (or
nothing) on both sides. -/
def WholeWordOccurs (kw s : List Char) : Prop :=
  ∃ a w b, s = a ++ w ++ b ∧ lowerStr w = kw ∧ NotWordCharLast a ∧ NotWordCharHead b

/-! ## Bridge lemmas: the executable searches agree with the
propositional readings. -/

theorem containsSub_iff (pat s : List Char) :
    containsSub pat s = true ↔ ∃ a b, s = a ++ pat ++ b := by
  unfold containsSub
  rw [List.any_eq_true]
  constructor
  · rintro ⟨i, hmem, hi⟩
    rw [beq_iff_eq] at hi
    refine ⟨s.take i, (s.drop i).drop pat.length, ?_⟩
    have h2 : s.drop i = pat ++ (s.drop i).drop pat.length := by
      conv_lhs => rw [← List.take_append_drop pat.length (s.drop i)]
      rw [hi]
    calc s = s.take i ++ s.drop i := (List.take_append_drop i s).symm
      _ = s.take i ++ (pat ++ (s.drop i).drop pat.length) := by rw [← h2]
      _ = s.take i ++ pat ++ (s.drop i).drop pat.length :=
          (List.append_assoc _ _ _).symm
  · rintro ⟨a, b, rfl⟩
    refine ⟨a.length, ?_, ?_⟩
    · rw [List.mem_range]
      simp [List.length_append]
      omega
    · rw [beq_iff_eq, List.append_assoc, List.drop_left]
      exact List.take_left pat b

theorem containsWholeWord_iff (kw s : List Char) (hkw : kw ≠ []) :
    containsWholeWord kw s = true ↔ WholeWordOccurs kw s := by
  unfold containsWholeWord
  rw [List.any_eq_true]
  constructor
  · rintro ⟨i, _hmem, hi⟩
    unfold isWholeWordAt at hi
    simp only [Bool.and_eq_true, beq_iff_eq, Bool.or_eq_true, Bool.not_eq_true'] at hi
    obtain ⟨⟨hslice, hleft⟩, hright⟩ := hi
    set w : List Char := (s.drop i).take kw.length with hw
    have hwlen : w.length = kw.length := by
      have := congrArg List.length hslice
      simpa [lowerStr] using this
    have hwne : w ≠ [] := by
      intro h
      apply hkw
      rw [← hslice, h]
      rfl
    have hirange : i < s.length + 1 := List.mem_range.mp _hmem
    have hile : i + kw.length ≤ s.length := by
      have hmin : w.length = min kw.length (s.length - i) := by
        rw [hw]
        simp [List.length_take, List.length_drop]
      omega
    have hdecomp : s.drop i = w ++ s.drop (i + kw.length) := by
      conv_lhs => rw [← List.take_append_drop kw.length (s.drop i)]
      rw [List.drop_drop, ← hw]
    refine ⟨s.take i, w, s.drop (i + kw.length), ?_, hslice, ?_, ?_⟩
    · calc s = s.take i ++ s.drop i := (List.take_append_drop i s).symm
        _ = s.take i ++ (w ++ s.drop (i + kw.length)) := by rw [hdecomp]
        _ = s.take i ++ w ++ s.drop (i + kw.length) :=
            (List.append_assoc _ _ _).symm
    · -- left boundary
      intro c hc
      rcases hleft with h0 | hnw
      · rw [h0] at hc
        simp at hc
      · have hlen : (s.take i).length = i := by
          rw [List.length_take]
          omega
        rw [List.getLast?_eq_getElem?, hlen] at hc
        have hi1 : i - 1 < i := by
          have : i ≠ 0 := by
            intro h
            rw [h] at hc
            simp at hc
          omega
        rw [List.getElem?_take_of_lt hi1] at hc
        unfold wordCharAt at hnw
        rw [hc] at hnw
        exact hnw
    · -- right boundary
      intro c hc
      unfold wordCharAt at hright
      rw [List.head?_eq_getElem?, List.getElem?_drop, Nat.add_zero] at hc
      rw [hc] at hright
      exact hright
  · rintro ⟨a, w, b, rfl, hlow, hleft, hright⟩
    have hwlen : w.length = kw.length := by
      have := congrArg List.length hlow
      simpa [lowerStr] using this
    have hwne : w ≠ [] := by
      intro h
      apply hkw
      rw [← hlow, h]
      rfl
    refine ⟨a.length, ?_, ?_⟩
    · rw [List.mem_range]
      simp [List.length_append]
      omega
    · unfold isWholeWordAt
      simp only [Bool.and_eq_true, beq_iff_eq, Bool.or_eq_true, Bool.not_eq_true']
      refine ⟨⟨?_, ?_⟩, ?_⟩
      · rw [List.append_assoc, List.drop_left, ← hwlen, List.take_left]
        exact hlow
      · -- left boundary
        rcases Nat.eq_zero_or_pos a.length with h0 | hpos
        · left
          simp [h0]
        · right
          have hane : a ≠ [] := by
            intro h
            rw [h] at hpos
            simp at hpos
          unfold wordCharAt
          have : ((a ++ w ++ b))[a.length - 1]? = a.getLast? := by
            rw [List.append_assoc, List.getElem?_append_left (by omega),
              List.getLast?_eq_getElem?]
          rw [this]
          obtain ⟨c, hc⟩ := Option.isSome_iff_exists.mp (List.getLast?_isSome.mpr hane)
          rw [hc]
          exact hleft c hc
      · -- right boundary
        unfold wordCharAt
        have : ((a ++ w ++ b))[a.length + kw.length]? = b.head? := by
          rw [List.append_assoc, List.getElem?_append_right (by omega)]
          rw [← hwlen]
          rw [List.getElem?_append_right (by omega)]
          rw [List.head?_eq_getElem?]
          congr 1
          omega
        rw [this]
        cases hb : b.head? with
        | none => rfl
        | some c => exact hright c hb

/-! ## SQL cleanup and validation
(`app/sub_agents/data_analysis/sub_agents/bigquery/tools.py`) -/

/-- `_cleanup_sql` (tools.py:278-289): unescape `\"`, an escaped line
break, `\'` and `\n`, strip whitespace, and append ` LIMIT {max_rows}`
when the (cleaned) string does not contain `"limit"` case-insensitively.
`max_rows` stands for `MAX_NUM_ROWS` (`int(os.getenv("NL2SQL_MAX_ROWS", "80"))`). -/
def _cleanup_sql (sql_string : List Char) (max_rows : Nat) : List Char :=
  let cleaned :=
    pyStrip
      (pyReplace
        (pyReplace
          (pyReplace
            (pyReplace sql_string ['\\', '"'] ['"'])
            ['\\', '\n'] ['\n'])
          ['\\', '\''] ['\''])
        ['\\', 'n'] ['\n'])
  if containsSub "limit".data (lowerStr cleaned) then cleaned
  else cleaned ++ (" LIMIT ".data ++ (Nat.repr max_rows).data)

/-- The normalization half of `_cleanup_sql` (the value bound to
`cleaned` before the LIMIT branch). -/
def _cleanup_sql_normalized (sql_string : List Char) : List Char :=
  pyStrip
    (pyReplace
      (pyReplace
        (pyReplace
          (pyReplace sql_string ['\\', '"'] ['"'])
          ['\\', '\n'] ['\n'])
        ['\\', '\''] ['\''])
      ['\\', 'n'] ['\n'])

theorem _cleanup_sql_eq (sql_string : List Char) (max_rows : Nat) :
    _cleanup_sql sql_string max_rows =
      if containsSub "limit".data (lowerStr (_cleanup_sql_normalized sql_string)) then
        _cleanup_sql_normalized sql_string
      else
        _cleanup_sql_normalized sql_string ++ (" LIMIT ".data ++ (Nat.repr max_rows).data) :=
  rfl

/-- A value inside a BigQuery result row, as the Python code
distinguishes them: `datetime.date`, `datetime.datetime` (a subclass of
`date` in Python, hence also caught by `isinstance(value, datetime.date)`),
or anything else (kept as-is by `_format_bq_rows`). -/
inductive BQValue where
  | vdate (year month day : Nat)
  | vdatetime (year month day hour minute second : Nat)
  | vstr (s : String)
  | vint (n : Int)
  | vfloat (numerator : Int) (denominator : Nat)
  | vbool (b : Bool)
  | vnull
deriving DecidableEq, Repr

/-- A BigQuery result row: ordered key/value pairs (`row.items()`). -/
abbrev BQRow := List (String × BQValue)

/-- Zero-pad a decimal rendering of `n` to width `w` (the behaviour of
`strftime` directives `%Y`/`%m`/`%d` on Linux). -/
def padNum (w n : Nat) : List Char :=
  List.replicate (w - (Nat.repr n).data.length) '0' ++ (Nat.repr n).data

/-- `value.strftime("%Y-%m-%d")` applied to the date components. -/
def strftimeYmd (year month day : Nat) : String :=
  ⟨padNum 4 year ++ '-' :: padNum 2 month ++ '-' :: padNum 2 day⟩

/-- The per-value branch of `_format_bq_rows` (tools.py:301-305):
`isinstance(value, datetime.date)` is true for both `date` and
`datetime` values, and both are replaced by `value.strftime("%Y-%m-%d")`;
every other value is kept unchanged. -/
def _format_value (v : BQValue) : BQValue :=
  match v with
  | .vdate y m d => .vstr (strftimeYmd y m d)
  | .vdatetime y m d _ _ _ => .vstr (strftimeYmd y m d)
  | v => v

/-- The per-row body of the loop in `_format_bq_rows`. -/
def _format_row (row : BQRow) : BQRow :=
  row.map fun kv => (kv.1, _format_value kv.2)

/-- The loop of `_format_bq_rows` (tools.py:298-309): append the
formatted row, then break as soon as the accumulated length reaches
`max_rows`.  `cnt` is the length of the accumulator so far. -/
def _format_bq_rows_aux (max_rows : Nat) (cnt : Nat) : List BQRow → List BQRow
  | [] => []
  | row :: rest =>
    if cnt + 1 ≥ max_rows then [_format_row row]
    else _format_row row :: _format_bq_rows_aux max_rows (cnt + 1) rest

/-- `_format_bq_rows` (tools.py:296-309). -/
def _format_bq_rows (results : List BQRow) (max_rows : Nat) : List BQRow :=
  _format_bq_rows_aux max_rows 0 results

/-- What the BigQuery client returns for an executed query:
whether `results.schema` is non-empty, and the result rows. -/
structure BQExecResult where
  schema_nonempty : Bool
  rows : List BQRow

/-- The shape of `run_bigquery_validation`'s return value. -/
structure ValidationResult where
  query_result : Option (List BQRow)
  error_message : Option String
deriving DecidableEq, Repr

/-- `run_bigquery_validation` (tools.py:312-355).  The BigQuery client
(`get_bq_client().query(...).result()`) is modelled by the oracle
`execute_query`, which either raises (`Except.error` with the exception
text) or returns a `BQExecResult`; the update of
`tool_context.state["query_result"]` (a copy of the returned rows) is
elided. -/
def run_bigquery_validation (execute_query : List Char → Except String BQExecResult)
    (sql_string : List Char) (max_rows : Nat) : ValidationResult :=
  if _is_disallowed_dml sql_string then
    { query_result := none,
      error_message := some "Invalid SQL: Contains disallowed DML/DDL operations." }
  else
    match execute_query (_cleanup_sql sql_string max_rows) with
    | .error exc =>
      { query_result := none, error_message := some ("Invalid SQL: " ++ exc) }
    | .ok res =>
      let rows := if res.schema_nonempty then _format_bq_rows res.rows max_rows else []
      if rows.isEmpty then
        { query_result := some rows,
          error_message := some "Valid SQL. Query executed successfully (no results)." }
      else
        { query_result := some rows, error_message := none }

/-! ## Helper lemmas about the denylist, cleanup and row formatting -/

theorem keywords_ne_nil : ∀ kw ∈ DISALLOWED_DML_KEYWORDS, kw ≠ [] := by decide

theorem containsSub_append_left (pat a b : List Char) (h : containsSub pat b = true) :
    containsSub pat (a ++ b) = true := by
  rcases (containsSub_iff pat b).mp h with ⟨x, y, rfl⟩
  refine (containsSub_iff _ _).mpr ⟨a ++ x, y, ?_⟩
  simp [List.append_assoc]

theorem lowerStr_append (a b : List Char) :
    lowerStr (a ++ b) = lowerStr a ++ lowerStr b :=
  List.map_append _ a b

theorem limit_suffix_contains (z : List Char) :
    containsSub "limit".data (lowerStr (" LIMIT ".data ++ z)) = true := by
  rw [lowerStr_append]
  have h1 : lowerStr " LIMIT ".data = " limit ".data := by decide
  rw [h1]
  refine (containsSub_iff _ _).mpr ⟨[' '], ' ' :: lowerStr z, rfl⟩

theorem _format_bq_rows_aux_length (max_rows : Nat) (rows : List BQRow) :
    ∀ cnt, cnt < max_rows →
      (_format_bq_rows_aux max_rows cnt rows).length ≤ max_rows - cnt := by
  induction rows with
  | nil => intro cnt _; simp [_format_bq_rows_aux]
  | cons row rest ih =>
    intro cnt hcnt
    unfold _format_bq_rows_aux
    by_cases h : cnt + 1 ≥ max_rows
    · rw [if_pos h]
      simp
      omega
    · rw [if_neg h]
      have := ih (cnt + 1) (by omega)
      simp only [List.length_cons]
      omega

theorem _format_bq_rows_length (results : List BQRow) (max_rows : Nat)
    (h : 1 ≤ max_rows) : (_format_bq_rows results max_rows).length ≤ max_rows := by
  have := _format_bq_rows_aux_length max_rows results 0 (by omega)
  unfold _format_bq_rows
  omega

theorem _format_bq_rows_aux_ne_nil (max_rows cnt : Nat) (row : BQRow) (rest : List BQRow) :
    _format_bq_rows_aux max_rows cnt (row :: rest) ≠ [] := by
  unfold _format_bq_rows_aux
  by_cases h : cnt + 1 ≥ max_rows
  · rw [if_pos h]; simp
  · rw [if_neg h]; simp

theorem _format_bq_rows_aux_mem (max_rows : Nat) (results : List BQRow) :
    ∀ cnt r, r ∈ _format_bq_rows_aux max_rows cnt results →
      ∃ r₀ ∈ results, r = _format_row r₀ := by
  induction results with
  | nil => intro cnt r hr; simp [_format_bq_rows_aux] at hr
  | cons row rest ih =>
    intro cnt r hr
    unfold _format_bq_rows_aux at hr
    by_cases h : cnt + 1 ≥ max_rows
    · rw [if_pos h] at hr
      simp at hr
      exact ⟨row, by simp, hr⟩
    · rw [if_neg h] at hr
      simp at hr
      rcases hr with hr | hr
      · exact ⟨row, by simp, hr⟩
      · rcases ih (cnt + 1) r hr with ⟨r₀, hmem, heq⟩
        exact ⟨r₀, by simp [hmem], heq⟩

theorem _format_value_ne_date (v : BQValue) :
    (∀ y m d, _format_value v ≠ .vdate y m d) ∧
    (∀ y m d hh mi ss, _format_value v ≠ .vdatetime y m d hh mi ss) := by
  cases v <;> simp [_format_value]

/-! ## Claim theorems for the BigQuery validation layer -/

/-- C1: for every SQL string in which one of the denylisted keywords
(update, delete, drop, insert, create, alter, truncate, merge) occurs as
a whole word, case-insensitively, `run_bigquery_validation` rejects it
without invoking the query engine (the result is the same for every
`execute_query` oracle), with `query_result = None` and the fixed
error message; and for every SQL string where the keywords occur, if at
all, only inside longer identifiers (never as a whole word), the
denylist does not reject it. -/
theorem denylist_whole_word_semantics (sql : List Char)
    (execute_query : List Char → Except String BQExecResult) (max_rows : Nat) :
    ((∃ kw ∈ DISALLOWED_DML_KEYWORDS, WholeWordOccurs kw sql) →
      run_bigquery_validation execute_query sql max_rows =
        { query_result := none,
          error_message := some "Invalid SQL: Contains disallowed DML/DDL operations." }) ∧
    ((∃ kw ∈ DISALLOWED_DML_KEYWORDS, ∃ a b, lowerStr sql = a ++ kw ++ b) →
      (∀ kw ∈ DISALLOWED_DML_KEYWORDS, ¬ WholeWordOccurs kw sql) →
      _is_disallowed_dml sql = false) := by
  constructor
  · rintro ⟨kw, hmem, hocc⟩
    have hd : _is_disallowed_dml sql = true := by
      unfold _is_disallowed_dml
      rw [List.any_eq_true]
      exact ⟨kw, hmem, (containsWholeWord_iff kw sql (keywords_ne_nil kw hmem)).mpr hocc⟩
    unfold run_bigquery_validation
    rw [hd]
    rfl
  · intro _ hno
    cases h : _is_disallowed_dml sql with
    | false => rfl
    | true =>
      exfalso
      unfold _is_disallowed_dml at h
      rw [List.any_eq_true] at h
      rcases h with ⟨kw, hmem, hww⟩
      exact hno kw hmem ((containsWholeWord_iff kw sql (keywords_ne_nil kw hmem)).mp hww)

/-- C1 witness: `"DELETE FROM t"` is rejected with the fixed message (for
a concrete oracle), while `"SELECT updated_at FROM t"`, where `update`
occurs only inside the identifier `updated_at`, passes the denylist. -/
theorem denylist_whole_word_semantics_witness :
    run_bigquery_validation (fun _ => .ok ⟨true, []⟩) "DELETE FROM t".data 80 =
      { query_result := none,
        error_message := some "Invalid SQL: Contains disallowed DML/DDL operations." } ∧
    _is_disallowed_dml "SELECT updated_at FROM t".data = false := by
  constructor
  · exact (denylist_whole_word_semantics "DELETE FROM t".data (fun _ => .ok ⟨true, []⟩) 80).1
      ⟨"delete".data, by decide,
        (containsWholeWord_iff "delete".data "DELETE FROM t".data (by decide)).mp (by decide)⟩
  · refine (denylist_whole_word_semantics "SELECT updated_at FROM t".data
      (fun _ => .ok ⟨true, []⟩) 80).2
      ⟨"update".data, by decide,
        (containsSub_iff "update".data (lowerStr "SELECT updated_at FROM t".data)).mp (by decide)⟩
      ?_
    have hall : ∀ kw ∈ DISALLOWED_DML_KEYWORDS,
        containsWholeWord kw "SELECT updated_at FROM t".data = false := by decide
    intro kw hmem hocc
    have := (containsWholeWord_iff kw "SELECT updated_at FROM t".data
      (keywords_ne_nil kw hmem)).mpr hocc
    rw [hall kw hmem] at this
    exact absurd this (by simp)

/-- C2 counterexample: `"SELECT 1 LIMIT 5 "` (trailing blank) contains
`"limit"` case-insensitively, yet `_cleanup_sql` does not leave it
unmodified: the string is stripped first.  This refutes the claim that a
query containing "limit" is returned unchanged. -/
theorem _cleanup_sql_counterexample :
    containsSub "limit".data (lowerStr "SELECT 1 LIMIT 5 ".data) = true ∧
    _cleanup_sql "SELECT 1 LIMIT 5 ".data 80 ≠ "SELECT 1 LIMIT 5 ".data := by
  constructor
  · decide
  · decide

/-- C2 (amended): `_cleanup_sql` first normalizes the string (unescaping
`\"`, escaped line breaks, `\'` and `\n`, and stripping surrounding
whitespace).  If the normalized string does not contain `"limit"`
case-insensitively, the result is the normalized string with exactly one
` LIMIT {max_rows}` clause appended (and it then does contain a limit
clause); if the normalized string already contains `"limit"`, the result
is the normalized string itself, with nothing appended. -/
theorem _cleanup_sql_limit_injection (sql : List Char) (max_rows : Nat) :
    (containsSub "limit".data (lowerStr (_cleanup_sql_normalized sql)) = false →
      _cleanup_sql sql max_rows =
        _cleanup_sql_normalized sql ++ (" LIMIT ".data ++ (Nat.repr max_rows).data) ∧
      containsSub "limit".data (lowerStr (_cleanup_sql sql max_rows)) = true) ∧
    (containsSub "limit".data (lowerStr (_cleanup_sql_normalized sql)) = true →
      _cleanup_sql sql max_rows = _cleanup_sql_normalized sql) := by
  constructor
  · intro h
    have heq : _cleanup_sql sql max_rows =
        _cleanup_sql_normalized sql ++ (" LIMIT ".data ++ (Nat.repr max_rows).data) := by
      rw [_cleanup_sql_eq, h]
      simp
    refine ⟨heq, ?_⟩
    rw [heq, lowerStr_append]
    exact containsSub_append_left _ _ _ (limit_suffix_contains _)
  · intro h
    rw [_cleanup_sql_eq, h]
    simp

/-- C2 witness: a query with no limit gets ` LIMIT 80` appended; a query
whose only occurrence of "limit" sits inside an identifier is returned
as-is (it needs no normalization). -/
theorem _cleanup_sql_limit_injection_witness :
    _cleanup_sql "SELECT 1".data 80 = "SELECT 1 LIMIT 80".data ∧
    _cleanup_sql "select top_limit from t".data 80 = "select top_limit from t".data := by
  constructor
  · have h := (_cleanup_sql_limit_injection "SELECT 1".data 80).1 (by decide)
    rw [h.1]
    decide
  · have h := (_cleanup_sql_limit_injection "select top_limit from t".data 80).2 (by decide)
    rw [h]
    decide

/-- C3: when the denylist passes, `run_bigquery_validation` is determined
by the query engine's outcome on the cleaned query: an exception yields
`query_result = None` and `"Invalid SQL: "` followed by the exception
text; success with zero rows yields `query_result = []` and the
no-results message; success with rows (and a non-empty result schema)
yields the serialized rows, at most `max_rows` many, and no error. -/
theorem run_bigquery_validation_execution (sql : List Char)
    (execute_query : List Char → Except String BQExecResult) (max_rows : Nat)
    (hd : _is_disallowed_dml sql = false) (hm : 1 ≤ max_rows) :
    (∀ exc, execute_query (_cleanup_sql sql max_rows) = .error exc →
      run_bigquery_validation execute_query sql max_rows =
        { query_result := none, error_message := some ("Invalid SQL: " ++ exc) }) ∧
    (∀ res, execute_query (_cleanup_sql sql max_rows) = .ok res → res.rows = [] →
      run_bigquery_validation execute_query sql max_rows =
        { query_result := some [],
          error_message := some "Valid SQL. Query executed successfully (no results)." }) ∧
    (∀ res, execute_query (_cleanup_sql sql max_rows) = .ok res →
      res.schema_nonempty = true → res.rows ≠ [] →
      run_bigquery_validation execute_query sql max_rows =
        { query_result := some (_format_bq_rows res.rows max_rows), error_message := none } ∧
      (_format_bq_rows res.rows max_rows).length ≤ max_rows) := by
  refine ⟨?_, ?_, ?_⟩
  · intro exc hexc
    unfold run_bigquery_validation
    rw [hd]
    simp only [Bool.false_eq_true, if_false, hexc]
  · intro res hres hrows
    unfold run_bigquery_validation
    rw [hd]
    simp only [Bool.false_eq_true, if_false, hres]
    have h0 : (if res.schema_nonempty then _format_bq_rows res.rows max_rows else []) = [] := by
      cases res.schema_nonempty
      · simp
      · simp [hrows, _format_bq_rows, _format_bq_rows_aux]
    simp [h0]
  · intro res hres hschema hrows
    have hne : _format_bq_rows res.rows max_rows ≠ [] := by
      cases h : res.rows with
      | nil => exact absurd h hrows
      | cons row rest =>
        unfold _format_bq_rows
        exact _format_bq_rows_aux_ne_nil max_rows 0 row rest
    constructor
    · unfold run_bigquery_validation
      rw [hd]
      simp only [Bool.false_eq_true, if_false, hres, hschema]
      simp [hne, List.isEmpty_iff]
    · exact _format_bq_rows_length res.rows max_rows hm

/-- C3 witness: the three outcomes at `"SELECT 1"` with concrete
oracles: an exception, an empty result, and a one-row result. -/
theorem run_bigquery_validation_execution_witness :
    run_bigquery_validation (fun _ => .error "boom") "SELECT 1".data 80 =
      { query_result := none, error_message := some "Invalid SQL: boom" } ∧
    run_bigquery_validation (fun _ => .ok ⟨true, []⟩) "SELECT 1".data 80 =
      { query_result := some [],
        error_message := some "Valid SQL. Query executed successfully (no results)." } ∧
    run_bigquery_validation (fun _ => .ok ⟨true, [[("a", BQValue.vint 1)]]⟩) "SELECT 1".data 80 =
      { query_result := some [[("a", BQValue.vint 1)]], error_message := none } := by
  refine ⟨?_, ?_, ?_⟩
  · exact (run_bigquery_validation_execution "SELECT 1".data (fun _ => .error "boom") 80
      (by decide) (by decide)).1 "boom" rfl
  · exact (run_bigquery_validation_execution "SELECT 1".data (fun _ => .ok ⟨true, []⟩) 80
      (by decide) (by decide)).2.1 ⟨true, []⟩ rfl rfl
  · have h := (run_bigquery_validation_execution "SELECT 1".data
      (fun _ => .ok ⟨true, [[("a", BQValue.vint 1)]]⟩) 80
      (by decide) (by decide)).2.2 ⟨true, [[("a", BQValue.vint 1)]]⟩ rfl rfl (by simp)
    rw [h.1]
    have : _format_bq_rows [[("a", BQValue.vint 1)]] 80 = [[("a", BQValue.vint 1)]] := by
      decide
    rw [this]

/-- C9: `_format_bq_rows` renders every `datetime.date` value — and,
because `datetime.datetime` is a subclass of `datetime.date` in Python,
every datetime value as well — as the `"%Y-%m-%d"` string, so timestamp
values lose their time-of-day component: two datetimes on the same date
format identically, every row of the output is the image of an input
row under the value formatter, and no raw date or datetime value
survives in the output. -/
theorem format_bq_rows_date_serialization :
    (∀ y m d, _format_value (.vdate y m d) = .vstr (strftimeYmd y m d)) ∧
    (∀ y m d hh mi ss, _format_value (.vdatetime y m d hh mi ss) = .vstr (strftimeYmd y m d)) ∧
    (∀ y m d hh₁ mi₁ ss₁ hh₂ mi₂ ss₂,
      _format_value (.vdatetime y m d hh₁ mi₁ ss₁) =
        _format_value (.vdatetime y m d hh₂ mi₂ ss₂)) ∧
    (∀ results max_rows r, r ∈ _format_bq_rows results max_rows →
      ∃ r₀ ∈ results, r = _format_row r₀) ∧
    (∀ results max_rows r kv, r ∈ _format_bq_rows results max_rows → kv ∈ r →
      (∀ y m d, kv.2 ≠ .vdate y m d) ∧
      (∀ y m d hh mi ss, kv.2 ≠ .vdatetime y m d hh mi ss)) := by
  refine ⟨fun _ _ _ => rfl, fun _ _ _ _ _ _ => rfl, fun _ _ _ _ _ _ _ _ _ => rfl, ?_, ?_⟩
  · intro results max_rows r hr
    exact _format_bq_rows_aux_mem max_rows results 0 r hr
  · intro results max_rows r kv hr hkv
    rcases _format_bq_rows_aux_mem max_rows results 0 r hr with ⟨r₀, _, rfl⟩
    unfold _format_row at hkv
    rcases List.mem_map.mp hkv with ⟨kv₀, _, rfl⟩
    exact _format_value_ne_date kv₀.2

/-- C9 witness: a concrete timestamp `2024-03-07 10:30:00` is rendered
as `"2024-03-07"`, and the formatted row is the image of the input row. -/
theorem format_bq_rows_date_serialization_witness :
    (([("ts", BQValue.vstr "2024-03-07")] : BQRow) ∈
      _format_bq_rows [[("ts", BQValue.vdatetime 2024 3 7 10 30 0)]] 80) ∧
    (∃ r₀ ∈ [[("ts", BQValue.vdatetime 2024 3 7 10 30 0)]],
      ([("ts", BQValue.vstr "2024-03-07")] : BQRow) = _format_row r₀) := by
  have hmem : ([("ts", BQValue.vstr "2024-03-07")] : BQRow) ∈
      _format_bq_rows [[("ts", BQValue.vdatetime 2024 3 7 10 30 0)]] 80 := by decide
  exact ⟨hmem,
    format_bq_rows_date_serialization.2.2.2.1 _ 80 _ hmem⟩

/-! ## Association-list model of Python dicts -/

/-- `d.get(k)`: first binding of `k` (Python dicts have unique keys, so
"first" is exact). -/
def assoc_get {κ ν : Type} [BEq κ] : List (κ × ν) → κ → Option ν
  | [], _ => none
  | p :: rest, k => if p.1 == k then some p.2 else assoc_get rest k

/-- `d[k] = v`: update the binding of `k` in place, else append it. -/
def assoc_set {κ ν : Type} [BEq κ] : List (κ × ν) → κ → ν → List (κ × ν)
  | [], k, v => [(k, v)]
  | p :: rest, k, v => if p.1 == k then (k, v) :: rest else p :: assoc_set rest k v

theorem assoc_get_set {κ ν : Type} [BEq κ] [LawfulBEq κ]
    (d : List (κ × ν)) (k : κ) (v : ν) : assoc_get (assoc_set d k v) k = some v := by
  induction d with
  | nil => simp [assoc_get, assoc_set]
  | cons p rest ih =>
    unfold assoc_set
    by_cases h : p.1 == k
    · rw [if_pos h]
      simp [assoc_get]
    · rw [if_neg h]
      unfold assoc_get
      rw [if_neg h]
      exact ih

/-! ## Strategy CRUD (`app/sub_agents/storage/utils.py`)

A strategy record is a Python dict of string fields; the strategies file
is a JSON array of them.  `get_strategies_file` / `_save_strategies`
(download and upload of the JSON blob) are modelled by passing the
stored list in and returning the saved list out (`none` when the
function returns without writing). -/

abbrev StrategyDict := List (String × String)

/-- `{**strat, **updated_strategy}`: fields of `strat` overridden by
`updated_strategy`, then the new keys of `updated_strategy`. -/
def dict_merge (strat upd : StrategyDict) : StrategyDict :=
  (strat.map fun p =>
    match assoc_get upd p.1 with
    | some v => (p.1, v)
    | none => p)
    ++ upd.filter fun q => (assoc_get strat q.1).isNone

/-- `delete_strategy_by_id` (utils.py:109-124): filter out the matching
record; when nothing was filtered out, return `False` without writing. -/
def delete_strategy_by_id (strategies : List StrategyDict) (strategy_id : String) :
    Bool × Option (List StrategyDict) :=
  let filtered := strategies.filter fun s =>
    decide (assoc_get s "strategy_id" ≠ some strategy_id)
  if filtered.length = strategies.length then (false, none)
  else (true, some filtered)

/-- The `for idx, strat in enumerate(strategies)` loop of
`update_strategy_by_id`: replace the first record whose `strategy_id`
matches with the merged dict; `none` when no record matches. -/
def _update_strategy_loop (sid : String) (upd : StrategyDict) :
    List StrategyDict → Option (List StrategyDict)
  | [] => none
  | strat :: rest =>
    if assoc_get strat "strategy_id" = some sid then some (dict_merge strat upd :: rest)
    else
      match _update_strategy_loop sid upd rest with
      | some newRest => some (strat :: newRest)
      | none => none

/-- `update_strategy_by_id` (utils.py:127-152): `ValueError` when the
update dict has no `strategy_id`; `(False, no write)` when no stored
record matches; otherwise `(True, the updated list)`. -/
def update_strategy_by_id (strategies : List StrategyDict) (updated_strategy : StrategyDict) :
    Except String (Bool × Option (List StrategyDict)) :=
  match assoc_get updated_strategy "strategy_id" with
  | none => .error "updated_strategy must contain 'strategy_id'"
  | some sid =>
    match _update_strategy_loop sid updated_strategy strategies with
    | none => .ok (false, none)
    | some updated => .ok (true, some updated)

/-- `create_strategy` (utils.py:155-170): take the provided
`strategy_id` when truthy (`strategy_json.get("strategy_id") or
str(uuid.uuid4())`), else a fresh UUID (modelled as the parameter
`fresh_uuid`); set it on the record, append and save. -/
def create_strategy (strategies : List StrategyDict) (strategy_json : StrategyDict)
    (fresh_uuid : String) : String × List StrategyDict :=
  let new_id :=
    match assoc_get strategy_json "strategy_id" with
    | some v => if v = "" then fresh_uuid else v
    | none => fresh_uuid
  (new_id, strategies ++ [assoc_set strategy_json "strategy_id" new_id])

theorem _update_strategy_loop_not_found (sid : String) (upd : StrategyDict)
    (strategies : List StrategyDict)
    (h : ∀ s ∈ strategies, assoc_get s "strategy_id" ≠ some sid) :
    _update_strategy_loop sid upd strategies = none := by
  induction strategies with
  | nil => rfl
  | cons strat rest ih =>
    unfold _update_strategy_loop
    rw [if_neg (h strat (by simp))]
    rw [ih fun s hs => h s (by simp [hs])]

/-- C4: strategy CRUD round-trip behaviour.  Creating a strategy whose
dict has no `strategy_id` returns the generated id and saves a list
containing a record carrying that id; updating an id that no stored
record carries returns the not-found signal `False` without writing the
store; deleting an id that no stored record carries returns `False`,
without raising and without writing the store. -/
theorem strategy_crud_roundtrip :
    (∀ (strategies : List StrategyDict) (strategy_json : StrategyDict) (fresh_uuid : String),
      assoc_get strategy_json "strategy_id" = none →
      (create_strategy strategies strategy_json fresh_uuid).1 = fresh_uuid ∧
      ∃ s ∈ (create_strategy strategies strategy_json fresh_uuid).2,
        assoc_get s "strategy_id" = some fresh_uuid) ∧
    (∀ (strategies : List StrategyDict) (updated_strategy : StrategyDict) (sid : String),
      assoc_get updated_strategy "strategy_id" = some sid →
      (∀ s ∈ strategies, assoc_get s "strategy_id" ≠ some sid) →
      update_strategy_by_id strategies updated_strategy = .ok (false, none)) ∧
    (∀ (strategies : List StrategyDict) (strategy_id : String),
      (∀ s ∈ strategies, assoc_get s "strategy_id" ≠ some strategy_id) →
      delete_strategy_by_id strategies strategy_id = (false, none)) := by
  refine ⟨?_, ?_, ?_⟩
  · intro strategies strategy_json fresh_uuid h
    constructor
    · simp [create_strategy, h]
    · refine ⟨assoc_set strategy_json "strategy_id" fresh_uuid, ?_, assoc_get_set _ _ _⟩
      simp [create_strategy, h]
  · intro strategies updated_strategy sid hsid hno
    have hloop := _update_strategy_loop_not_found sid updated_strategy strategies hno
    simp [update_strategy_by_id, hsid, hloop]
  · intro strategies strategy_id hno
    have hfil : strategies.filter
        (fun s => decide (assoc_get s "strategy_id" ≠ some strategy_id)) = strategies :=
      List.filter_eq_self.mpr fun s hs => decide_eq_true (hno s hs)
    simp [delete_strategy_by_id, hfil]
    exact hno

/-- C4 witness: creating `[("strategy_name", "x")]` into an empty store
with UUID `u-1` saves a record with id `u-1`; updating and deleting the
absent id `missing` on a one-record store signal not-found without a
write. -/
theorem strategy_crud_roundtrip_witness :
    ((create_strategy [] [("strategy_name", "x")] "u-1").1 = "u-1" ∧
      ∃ s ∈ (create_strategy [] [("strategy_name", "x")] "u-1").2,
        assoc_get s "strategy_id" = some "u-1") ∧
    update_strategy_by_id [[("strategy_id", "u-1")]]
      [("strategy_id", "missing"), ("f", "v")] = .ok (false, none) ∧
    delete_strategy_by_id [[("strategy_id", "u-1")]] "missing" = (false, none) := by
  refine ⟨?_, ?_, ?_⟩
  · exact strategy_crud_roundtrip.1 [] [("strategy_name", "x")] "u-1" (by decide)
  · refine strategy_crud_roundtrip.2.1 [[("strategy_id", "u-1")]]
      [("strategy_id", "missing"), ("f", "v")] "missing" (by decide) ?_
    intro s hs
    simp at hs
    subst hs
    decide
  · refine strategy_crud_roundtrip.2.2 [[("strategy_id", "u-1")]] "missing" ?_
    intro s hs
    simp at hs
    subst hs
    decide

/-- C10: `create_strategy` performs no uniqueness check.  With an
explicit truthy `strategy_id`, the given id is returned unchanged and
the record is appended as-is, so two successive creates with the same
explicit id leave two records sharing that id in the saved list; the
fresh UUID is used only when the field is absent or falsy (the empty
string). -/
theorem create_strategy_no_uniqueness_check :
    (∀ (strategies : List StrategyDict) (strategy_json : StrategyDict)
        (sid fresh_uuid : String),
      assoc_get strategy_json "strategy_id" = some sid → sid ≠ "" →
      (create_strategy strategies strategy_json fresh_uuid).1 = sid ∧
      (create_strategy strategies strategy_json fresh_uuid).2 =
        strategies ++ [assoc_set strategy_json "strategy_id" sid]) ∧
    (∀ (strategies : List StrategyDict) (strategy_json : StrategyDict)
        (sid u₁ u₂ : String),
      assoc_get strategy_json "strategy_id" = some sid → sid ≠ "" →
      ((create_strategy (create_strategy strategies strategy_json u₁).2
          strategy_json u₂).2.countP
        fun s => assoc_get s "strategy_id" == some sid) =
        (strategies.countP fun s => assoc_get s "strategy_id" == some sid) + 2) ∧
    (∀ (strategies : List StrategyDict) (strategy_json : StrategyDict) (fresh_uuid : String),
      assoc_get strategy_json "strategy_id" = some "" →
      (create_strategy strategies strategy_json fresh_uuid).1 = fresh_uuid) := by
  have hone : ∀ (strategies : List StrategyDict) (strategy_json : StrategyDict)
      (sid fresh_uuid : String),
      assoc_get strategy_json "strategy_id" = some sid → sid ≠ "" →
      (create_strategy strategies strategy_json fresh_uuid).1 = sid ∧
      (create_strategy strategies strategy_json fresh_uuid).2 =
        strategies ++ [assoc_set strategy_json "strategy_id" sid] := by
    intro strategies strategy_json sid fresh_uuid h hne
    constructor
    · simp [create_strategy, h, hne]
    · simp [create_strategy, h, hne]
  refine ⟨hone, ?_, ?_⟩
  · intro strategies strategy_json sid u₁ u₂ h hne
    rw [(hone strategies strategy_json sid u₁ h hne).2]
    rw [(hone (strategies ++ [assoc_set strategy_json "strategy_id" sid])
      strategy_json sid u₂ h hne).2]
    have hpred : (fun s => assoc_get s "strategy_id" == some sid)
        (assoc_set strategy_json "strategy_id" sid) = true := by
      simp [assoc_get_set]
    simp [List.countP_append, List.countP_cons, hpred]
  · intro strategies strategy_json fresh_uuid h
    simp [create_strategy, h]

/-- C10 witness: two creates with the explicit id `dup` leave two
records with that id; an empty-string id falls back to the fresh UUID. -/
theorem create_strategy_no_uniqueness_check_witness :
    ((create_strategy (create_strategy [] [("strategy_id", "dup")] "u-1").2
        [("strategy_id", "dup")] "u-2").2.countP
      fun s => assoc_get s "strategy_id" == some "dup") = 2 ∧
    (create_strategy [] [("strategy_id", "")] "u-3").1 = "u-3" := by
  constructor
  · have h := (create_strategy_no_uniqueness_check.2.1 [] [("strategy_id", "dup")]
      "dup" "u-1" "u-2" (by decide) (by decide))
    rw [h]
    decide
  · exact create_strategy_no_uniqueness_check.2.2 [] [("strategy_id", "")] "u-3" (by decide)

/-! ## Business-config file creation (`app/sub_agents/storage/utils.py`,
tool wrapper in `app/sub_agents/storage/tools.py`) -/

/-- A JSON-able Python value as the business-config code distinguishes
them (the channel list holds strings in this repository). -/
inductive PyVal where
  | pstr (s : String)
  | pint (n : Int)
  | pbool (b : Bool)
  | plist (l : List String)
  | pnone
deriving DecidableEq, Repr

/-- Python truthiness (`bool(value)`) for the modelled values. -/
def py_truthy : PyVal → Bool
  | .pstr s => !(s == "")
  | .pint n => !(n == 0)
  | .pbool b => b
  | .plist l => !l.isEmpty
  | .pnone => false

abbrev ConfigDict := List (String × PyVal)

/-- The exceptions `create_business_config_file` raises. -/
inductive BcfError where
  | envError (msg : String)
  | valueError (msg : String)
  | fileExistsError (msg : String)
deriving DecidableEq, Repr

/-- `str(e)` for the wrapper's error payload. -/
def bcf_error_message : BcfError → String
  | .envError m => m
  | .valueError m => m
  | .fileExistsError m => m

/-- `name = (config.get("name") or "").strip() if isinstance(config.get("name"), str) else None`
(utils.py:191): a string value is stripped (the `or ""` step collapses
into stripping, since stripping the empty string is the empty string);
a missing or non-string value gives `None`. -/
def _bcf_name (config : ConfigDict) : Option String :=
  match assoc_get config "name" with
  | some (.pstr s) => some (String.mk (pyStrip s.data))
  | _ => none

/-- The stored payload (utils.py:198-204) with its defaults. -/
def _bcf_payload (name : String) (config : ConfigDict) : ConfigDict :=
  [("name", .pstr name),
   ("business_description", (assoc_get config "business_description").getD (.pstr "")),
   ("budget", (assoc_get config "budget").getD (.pint 0)),
   ("enable_budget_alerts",
     .pbool (py_truthy ((assoc_get config "enable_budget_alerts").getD (.pbool false)))),
   ("allowed_campaign_channels",
     (assoc_get config "allowed_campaign_channels").getD (.plist []))]

/-- `create_business_config_file` (utils.py:187-210).  `bucket_env`
models `BUSINESS_CONFIG_BUCKET = os.getenv(...)`, `blob_exists` the
GCS existence probe; the second component lists the objects written
(blob name and payload), so an error with `[]` is a rejection before
any write. -/
def create_business_config_file (bucket_env : Option String) (blob_exists : Bool)
    (config : ConfigDict) (filename : String) :
    Except BcfError String × List (String × ConfigDict) :=
  match bucket_env with
  | none => (.error (.envError "BUSINESS_CONFIIG_JSON_BUCKET is not set"), [])
  | some bucket =>
    if bucket = "" then
      (.error (.envError "BUSINESS_CONFIIG_JSON_BUCKET is not set"), [])
    else
      match _bcf_name config with
      | none => (.error (.valueError "config must include a non-empty 'name' field"), [])
      | some name =>
        if name = "" then
          (.error (.valueError "config must include a non-empty 'name' field"), [])
        else if blob_exists then
          (.error (.fileExistsError
            ("file already exists: gs://" ++ bucket ++ "/" ++ filename)), [])
        else
          (.ok ("gs://" ++ bucket ++ "/" ++ filename),
           [(filename, _bcf_payload name config)])

/-- The tool wrapper's result shape (`tools.py`). -/
structure ToolResult where
  status : String
  gcs_uri : Option String
  error_message : Option String
deriving DecidableEq, Repr

/-- `create_business_config_file_tool_fn` (tools.py:146-165): a blanket
`except Exception` converts any raised error into a
`status="error"` payload. -/
def create_business_config_file_tool_fn (bucket_env : Option String) (blob_exists : Bool)
    (config : ConfigDict) (filename : String) : ToolResult × List (String × ConfigDict) :=
  match create_business_config_file bucket_env blob_exists config filename with
  | (.ok uri, writes) => (⟨"success", some uri, none⟩, writes)
  | (.error e, writes) => (⟨"error", none, some (bcf_error_message e)⟩, writes)

/-- C5: with the bucket configured, every config whose `"name"` field is
missing, not a string, empty, or whitespace-only is rejected with the
invalid-argument `ValueError` — surfaced by the tool wrapper as a
`status = "error"` result — and nothing is written; and every accepted
config whose optional fields are unspecified is stored with the
defaults: empty description, budget `0`, alerts `False`, empty channel
list. -/
theorem create_business_config_file_validation :
    (∀ (bucket : String) (blob_exists : Bool) (config : ConfigDict) (filename : String),
      bucket ≠ "" →
      (∀ s, assoc_get config "name" = some (.pstr s) → pyStrip s.data = []) →
      create_business_config_file (some bucket) blob_exists config filename =
        (.error (.valueError "config must include a non-empty 'name' field"), []) ∧
      (create_business_config_file_tool_fn (some bucket) blob_exists config filename).1.status
        = "error" ∧
      (create_business_config_file_tool_fn (some bucket) blob_exists config filename).2 = []) ∧
    (∀ (bucket : String) (config : ConfigDict) (filename : String) (s : String),
      bucket ≠ "" →
      assoc_get config "name" = some (.pstr s) → pyStrip s.data ≠ [] →
      assoc_get config "business_description" = none →
      assoc_get config "budget" = none →
      assoc_get config "enable_budget_alerts" = none →
      assoc_get config "allowed_campaign_channels" = none →
      create_business_config_file (some bucket) false config filename =
        (.ok ("gs://" ++ bucket ++ "/" ++ filename),
         [(filename,
           [("name", .pstr (String.mk (pyStrip s.data))),
            ("business_description", .pstr ""),
            ("budget", .pint 0),
            ("enable_budget_alerts", .pbool false),
            ("allowed_campaign_channels", .plist [])])])) := by
  constructor
  · intro bucket blob_exists config filename hb hname
    have hrej : create_business_config_file (some bucket) blob_exists config filename =
        (.error (.valueError "config must include a non-empty 'name' field"), []) := by
      simp only [create_business_config_file]
      rw [if_neg hb]
      cases hget : assoc_get config "name" with
      | none => simp [_bcf_name, hget]
      | some v =>
        cases v with
        | pstr s =>
          have hempty : String.mk (pyStrip s.data) = "" := by
            rw [hname s hget]
          simp [_bcf_name, hget, hempty]
        | pint n => simp [_bcf_name, hget]
        | pbool b => simp [_bcf_name, hget]
        | plist l => simp [_bcf_name, hget]
        | pnone => simp [_bcf_name, hget]
    refine ⟨hrej, ?_, ?_⟩ <;>
      simp [create_business_config_file_tool_fn, hrej]
  · intro bucket config filename s hb hget hne hd1 hd2 hd3 hd4
    have hmkne : String.mk (pyStrip s.data) ≠ "" := by
      intro h
      apply hne
      have := congrArg String.data h
      simpa using this
    simp only [create_business_config_file]
    rw [if_neg hb]
    simp [_bcf_name, hget, hmkne, _bcf_payload, hd1, hd2, hd3, hd4, py_truthy]

/-- C5 witness: a whitespace-only name is rejected as an error with no
write; the name `" Acme "` with no optional fields is stored stripped,
with all defaults. -/
theorem create_business_config_file_validation_witness :
    create_business_config_file (some "cfg-bucket") false
      [("name", PyVal.pstr "   ")] "business_config.json" =
      (.error (.valueError "config must include a non-empty 'name' field"), []) ∧
    create_business_config_file (some "cfg-bucket") false
      [("name", PyVal.pstr " Acme ")] "business_config.json" =
      (.ok "gs://cfg-bucket/business_config.json",
       [("business_config.json",
         [("name", PyVal.pstr "Acme"),
          ("business_description", PyVal.pstr ""),
          ("budget", PyVal.pint 0),
          ("enable_budget_alerts", PyVal.pbool false),
          ("allowed_campaign_channels", PyVal.plist [])])]) := by
  constructor
  · refine (create_business_config_file_validation.1 "cfg-bucket" false
      [("name", PyVal.pstr "   ")] "business_config.json" (by decide) ?_).1
    intro s hs
    simp [assoc_get] at hs
    subst hs
    decide
  · have h := create_business_config_file_validation.2 "cfg-bucket"
      [("name", PyVal.pstr " Acme ")] "business_config.json" " Acme "
      (by decide) (by simp [assoc_get]) (by decide) (by decide) (by decide)
      (by decide) (by decide)
    have hs : String.mk (pyStrip " Acme ".data) = "Acme" := by decide
    rw [h, hs]
    rfl

/-! ## Environment-file loader (`app/utils/load_env_vars.py`) -/

/-- One of the quote characters recognized by the loader's
`value.startswith(("'", '"'))` test. -/
def isQuoteChar (c : Char) : Bool := c == '\'' || c == '"'

/-- The body of the `for raw in f` loop (load_env_vars.py:15-24) on one
raw line: `none` when the line is skipped (blank after stripping,
comment, or no `"="`), otherwise the key/value pair that is assigned
into `os.environ` (split at the first `"="`, both sides stripped, one
surrounding quote pair removed when the value both starts and ends with
a quote character). -/
def _env_line_action (raw : List Char) : Option (List Char × List Char) :=
  let line := pyStrip raw
  if line = [] then none
  else if line.head? = some '#' then none
  else if line.contains '=' = false then none
  else
    let key := pyStrip (line.takeWhile fun c => !(c == '='))
    let value := pyStrip ((line.dropWhile fun c => !(c == '=')).drop 1)
    let value :=
      if value.head?.any isQuoteChar && value.getLast?.any isQuoteChar then
        (value.drop 1).dropLast
      else value
    some (key, value)

/-- `load_env_vars` (load_env_vars.py:7-27) over the lines of an
existing file: `os.environ` is modelled as an association list threaded
through, and the returned `Nat` is the count of variables set. -/
def load_env_vars : List (List Char) → List (List Char × List Char) →
    List (List Char × List Char) × Nat
  | [], env => (env, 0)
  | raw :: rest, env =>
    match _env_line_action raw with
    | none => load_env_vars rest env
    | some (key, value) =>
      let r := load_env_vars rest (assoc_set env key value)
      (r.1, r.2 + 1)

theorem _env_line_action_skip (raw : List Char)
    (h : pyStrip raw = [] ∨ (pyStrip raw).head? = some '#' ∨
      (pyStrip raw).contains '=' = false) :
    _env_line_action raw = none := by
  unfold _env_line_action
  rcases h with h | h | h
  · simp [h]
  · by_cases h0 : pyStrip raw = []
    · simp [h0]
    · simp [h0, h]
  · by_cases h0 : pyStrip raw = []
    · simp [h0]
    · by_cases h1 : (pyStrip raw).head? = some '#'
      · simp [h0, h1]
      · have h2 : '=' ∉ pyStrip raw := by simpa using h
        simp [h0, h1, h, h2]

/-- C6: the environment-file loader sets `KEY` to `value with spaces`
for the line `KEY='value with spaces'` (surrounding quotes stripped);
skips every line that is blank after stripping, starts with `#`, or has
no `"="`, without an error; and returns the count of variables set (the
number of non-skipped lines). -/
theorem load_env_vars_spec :
    (∀ env, load_env_vars ["KEY='value with spaces'".data] env =
      (assoc_set env "KEY".data "value with spaces".data, 1)) ∧
    (∀ (raw : List Char) (rest : List (List Char)) env,
      pyStrip raw = [] ∨ (pyStrip raw).head? = some '#' ∨
        (pyStrip raw).contains '=' = false →
      load_env_vars (raw :: rest) env = load_env_vars rest env) ∧
    (∀ (lines : List (List Char)) env,
      (load_env_vars lines env).2 =
        lines.countP fun raw => (_env_line_action raw).isSome) := by
  refine ⟨?_, ?_, ?_⟩
  · intro env
    have haction : _env_line_action "KEY='value with spaces'".data =
        some ("KEY".data, "value with spaces".data) := by decide
    simp [load_env_vars, haction]
  · intro raw rest env h
    simp [load_env_vars, _env_line_action_skip raw h]
  · intro lines
    induction lines with
    | nil => intro env; simp [load_env_vars]
    | cons raw rest ih =>
      intro env
      unfold load_env_vars
      cases haction : _env_line_action raw with
      | none => simp [List.countP_cons, haction, ih]
      | some kv => simp [List.countP_cons, haction, ih]

/-- C6 witness: the quoted line sets `KEY` in an empty environment;
a comment line, a line without `"="` and a blank line set nothing. -/
theorem load_env_vars_spec_witness :
    load_env_vars ["KEY='value with spaces'".data] [] =
      ([("KEY".data, "value with spaces".data)], 1) ∧
    load_env_vars ["# comment".data, "no equals sign".data, "   ".data] [] = ([], 0) := by
  constructor
  · rw [load_env_vars_spec.1 []]
    rfl
  · rw [load_env_vars_spec.2.1 "# comment".data _ _ (Or.inr (Or.inl (by decide))),
      load_env_vars_spec.2.1 "no equals sign".data _ _ (Or.inr (Or.inr (by decide))),
      load_env_vars_spec.2.1 "   ".data _ _ (Or.inl (by decide))]
    rfl

/-! ## The `/feedback` endpoint (`app/server.py`) -/

/-- `collect_feedback` (server.py:127-135): log the feedback and return
`{"status": "success"}`; when logging raises, swallow the exception and
return `{"status": "ok"}`.  `log_raises` models whether
`logger.info(...)` raises. -/
def collect_feedback (log_raises : Bool) : List (String × String) :=
  if log_raises then [("status", "ok")] else [("status", "success")]

/-- C7 counterexample: the response body is not the same payload on both
paths — the normal path returns `{"status": "success"}` while the
exception path returns `{"status": "ok"}`. -/
theorem collect_feedback_counterexample :
    collect_feedback true ≠ collect_feedback false ∧
    collect_feedback true ≠ [("status", "success")] := by
  constructor <;> decide

/-- C7 (amended): the endpoint returns an acknowledgment and never
propagates the logging exception, but the body differs between the two
paths: `{"status": "success"}` when logging succeeds, `{"status": "ok"}`
when logging raises.  Both are single-entry payloads keyed
`"status"`. -/
theorem collect_feedback_acknowledgment (log_raises : Bool) :
    collect_feedback log_raises =
      [("status", if log_raises then "ok" else "success")] ∧
    (collect_feedback log_raises).length = 1 ∧
    (collect_feedback log_raises).head?.map Prod.fst = some "status" := by
  cases log_raises <;> simp [collect_feedback]

/-! ## Tool-call error boundaries (`app/sub_agents/cli/tools.py`,
`app/sub_agents/cli/utils.py`, and the NL2SQL draft generator in
`app/sub_agents/data_analysis/sub_agents/bigquery/tools.py`) -/

/-- The payload `cli_run` / `cli_gcloud` return. -/
structure CliPayload where
  status : String
  return_code : Int
  stdout : String
  stderr : String
deriving DecidableEq, Repr

/-- What `subprocess` can raise: the `CalledProcessError` that `run_cli`
itself raises on a non-zero exit under `check`, or an error from
spawning the process (`FileNotFoundError`/`OSError` out of
`subprocess.run`). -/
inductive SubprocessError where
  | calledProcessError (returncode : Int) (output : String) (stderr : String)
  | spawnError (msg : String)
deriving DecidableEq, Repr

/-- `run_cli` (cli/utils.py:6-46): run the process (the abstract
`spawn` oracle); with `check` set, raise `CalledProcessError` on a
non-zero exit, else return `(returncode, stdout, stderr)`. -/
def run_cli (spawn : Except String (Int × String × String)) (check : Bool) :
    Except SubprocessError (Int × String × String) :=
  match spawn with
  | .error m => .error (.spawnError m)
  | .ok (rc, out, err) =>
    if check = true ∧ rc ≠ 0 then .error (.calledProcessError rc out err)
    else .ok (rc, out, err)

/-- `run_gcloud` (cli/utils.py:49-73): prepends the `gcloud` executable
to the argument vector and delegates to `run_cli`; the argv-to-outcome
map is already abstracted into `spawn`. -/
def run_gcloud (spawn : Except String (Int × String × String)) (check : Bool) :
    Except SubprocessError (Int × String × String) :=
  run_cli spawn check

/-- `cli_run` (cli/tools.py:11-46): `try ... except
subprocess.CalledProcessError` — only that exception is converted into a
`status="error"` payload; anything else propagates. -/
def cli_run (spawn : Except String (Int × String × String)) (check : Bool) :
    Except SubprocessError CliPayload :=
  match run_cli spawn check with
  | .ok (rc, out, err) => .ok ⟨"success", rc, out, err⟩
  | .error (.calledProcessError rc out err) => .ok ⟨"error", rc, out, err⟩
  | .error e => .error e

/-- `cli_gcloud` (cli/tools.py:52-88): same boundary over `run_gcloud`. -/
def cli_gcloud (spawn : Except String (Int × String × String)) (check : Bool) :
    Except SubprocessError CliPayload :=
  match run_gcloud spawn check with
  | .ok (rc, out, err) => .ok ⟨"success", rc, out, err⟩
  | .error (.calledProcessError rc out err) => .ok ⟨"error", rc, out, err⟩
  | .error e => .error e

/-- `_call_nl2sql_llm` (bigquery/tools.py:242-260): call the model (the
abstract `generate_content` oracle yielding `resp.text`), take
`(resp.text or "").strip()`, drop markdown fences, strip again.  There
is no `try`/`except`: a model-call error propagates. -/
def _call_nl2sql_llm (generate_content : Except String (Option String)) :
    Except String (List Char) :=
  match generate_content with
  | .error e => .error e
  | .ok text =>
    .ok (pyStrip (pyReplace (pyReplace (pyStrip (text.getD "").data)
      "```sql".data []) "```".data []))

/-- `initial_bq_nl2sql` (bigquery/tools.py:263-272): build the prompt
(pure string substitution, elided), call the model, store and return
the draft SQL.  No exception handling at all. -/
def initial_bq_nl2sql (generate_content : Except String (Option String)) :
    Except String (List Char) :=
  _call_nl2sql_llm generate_content

/-- C8 counterexample: not every tool call catches errors at its
boundary — an error raised by the model call inside the NL2SQL draft
generator propagates uncaught instead of being returned as data, and
`cli_run` propagates a spawn failure (it catches only
`CalledProcessError`). -/
theorem tool_error_boundary_counterexample :
    initial_bq_nl2sql (.error "model call failed") = .error "model call failed" ∧
    cli_run (.error "No such file or directory: nonexistent-cmd") true =
      .error (.spawnError "No such file or directory: nonexistent-cmd") :=
  ⟨rfl, rfl⟩

/-- C8 (amended): `cli_run` and `cli_gcloud` catch the expected
`CalledProcessError` (non-zero exit under `check`) and return it as a
`status = "error"` payload instead of raising, but an error from
spawning the process itself propagates out of them, and the NL2SQL
draft generator catches nothing: an error from the model call
propagates uncaught, while a successful model call always yields a
draft (never an error payload shape). -/
theorem tool_error_boundary (spawn_rc : Int) (out err : String) (check : Bool) :
    cli_run (.ok (spawn_rc, out, err)) check =
      .ok (if check = true ∧ spawn_rc ≠ 0 then ⟨"error", spawn_rc, out, err⟩
        else ⟨"success", spawn_rc, out, err⟩) ∧
    cli_gcloud (.ok (spawn_rc, out, err)) check =
      .ok (if check = true ∧ spawn_rc ≠ 0 then ⟨"error", spawn_rc, out, err⟩
        else ⟨"success", spawn_rc, out, err⟩) ∧
    (∀ m, cli_run (.error m) check = .error (.spawnError m)) ∧
    (∀ e, initial_bq_nl2sql (.error e) = .error e) ∧
    (∀ text, ∃ sql, initial_bq_nl2sql (.ok text) = .ok sql) := by
  refine ⟨?_, ?_, fun m => rfl, fun e => rfl, fun text => ⟨_, rfl⟩⟩
  · unfold cli_run run_cli
    by_cases h : check = true ∧ spawn_rc ≠ 0
    · simp only [if_pos h]
    · simp only [if_neg h]
  · unfold cli_gcloud run_gcloud run_cli
    by_cases h : check = true ∧ spawn_rc ≠ 0
    · simp only [if_pos h]
    · simp only [if_neg h]

end Promosphere
